import Mathlib

/-!
Shallow embedding of the Stealthwatch flow-query client (`src/backend.py`)
of the sna-visualizer repository, together with proofs about the claims of
its specification.

Modelling conventions:
* Python values reachable by the normalizer and result fetcher are modelled
  by the inductive `PyVal` (JSON-like values plus Python `None`).
* Python exceptions raised by the client are modelled by `PyExn`; the
  constructor corresponds to the Python exception class, the string to its
  message (the message text of library-raised exceptions such as
  `requests.HTTPError` is a stand-in; the class structure is what matters).
* An HTTP interaction is modelled by the value the `requests` call produces:
  either a transport-level failure (`requests.exceptions.RequestException`)
  or a response carrying a status code and payload.
* The poll loop of `StealthwatchClient.fetch_flows` is modelled as a
  function consuming the finite list of successfully parsed status payloads
  the server would hand out, each reduced to its optional `percentComplete`
  number; an exhausted list means the real loop would still be polling.
-/

/-- Python values as they occur in the client: `None`, strings, numbers,
booleans, lists and dicts (dicts as association lists; lookup finds the
first binding, and a Python dict has at most one binding per key). -/
inductive PyVal : Type where
  | none : PyVal
  | str (s : String) : PyVal
  | num (q : ℚ) : PyVal
  | bool (b : Bool) : PyVal
  | list (xs : List PyVal) : PyVal
  | dict (fields : List (String × PyVal)) : PyVal

/-- First-binding lookup in an association list keyed by strings, as a
Python dict lookup behaves on the dicts the client builds. -/
def lookupKey {α : Type} : List (String × α) → String → Option α
  | [], _ => Option.none
  | (k, v) :: rest, key => if k = key then Option.some v else lookupKey rest key

/-- Python exception classes raised by the code under `src/backend.py`:
`ConnectionError` (raised explicitly by `authenticate`/`get_tenants`),
`requests.exceptions.RequestException` and subclasses (transport failures
and `raise_for_status`), `ValueError` (non-201 on query submission) and
`AttributeError` (calling `.get` on a non-dict value). -/
inductive PyExn : Type where
  | connectionError (msg : String) : PyExn
  | requestException (msg : String) : PyExn
  | valueError (msg : String) : PyExn
  | attributeError (msg : String) : PyExn
deriving DecidableEq

/-- The Python exception class name of a raised exception; a caller's
`except SomeClass:` clause distinguishes exceptions exactly by this. -/
def exnClass : PyExn → String
  | PyExn.connectionError _ => "ConnectionError"
  | PyExn.requestException _ => "RequestException"
  | PyExn.valueError _ => "ValueError"
  | PyExn.attributeError _ => "AttributeError"

/-- Outcome of the `requests.Session.post` call in `authenticate`: a
transport-level failure, or an HTTP response with a status code and the
response cookies (name/value pairs). -/
inductive PostResult : Type where
  | transportError (msg : String) : PostResult
  | response (status : ℕ) (cookies : List (String × String)) : PostResult

/-- Embedding of `StealthwatchClient.authenticate` (src/backend.py lines
27-39). Mirrors the Python control flow: `raise_for_status` turns a 4xx/5xx
status into a `requests.HTTPError` (a `RequestException`), caught by the
first handler and re-raised as `ConnectionError("Network error during
authentication: ...")`; a missing or empty `XSRF-TOKEN` cookie raises
`ConnectionError("Authentication failed: ...")` inside the `try`, which the
generic `except Exception` handler catches and re-raises as
`ConnectionError("Authentication error: ...")`. On success the token is
installed in the session headers; the model returns it. -/
def authenticate (r : PostResult) : Except PyExn String :=
  match r with
  | PostResult.transportError msg =>
      Except.error (PyExn.connectionError ("Network error during authentication: " ++ msg))
  | PostResult.response status cookies =>
      if 400 ≤ status then
        Except.error (PyExn.connectionError
          ("Network error during authentication: HTTP " ++ toString status ++ " error"))
      else
        match lookupKey cookies "XSRF-TOKEN" with
        | Option.some t =>
            if t = "" then
              Except.error (PyExn.connectionError
                "Authentication error: Authentication failed: XSRF-TOKEN not found in response cookies.")
            else Except.ok t
        | Option.none =>
            Except.error (PyExn.connectionError
              "Authentication error: Authentication failed: XSRF-TOKEN not found in response cookies.")

/-- The `ipAddresses` dict of a role block of the query payload: keys
"includes"/"excludes" mapped to IP lists. -/
abbrev IpDict := List (String × List String)

/-- A role block (`"subject"` or `"peer"`) of the query payload; the code
only ever stores the single key `"ipAddresses"` in it. -/
structure RoleBlock : Type where
  ipAddresses : IpDict
deriving DecidableEq

/-- The serialized flow-query request body built at the top of
`StealthwatchClient.fetch_flows` (src/backend.py lines 58-70). -/
structure QueryPayload : Type where
  startDateTime : String
  endDateTime : String
  recordLimit : ℕ
  subject : Option RoleBlock
  peer : Option RoleBlock
deriving DecidableEq

/-- Embedding of the payload-building statements of
`StealthwatchClient.fetch_flows`: four sequential `if` statements, each of
which (when its list is non-empty, i.e. truthy) replaces the whole
`ipAddresses` dict of the role's block (`setdefault(role, {})["ipAddresses"]
= {...}` keeps the role dict but overwrites `ipAddresses` entirely). -/
def build_query_payload (start_time end_time : String) (limit : ℕ)
    (subject_ips_in subject_ips_ex peer_ips_in peer_ips_ex : List String) : QueryPayload :=
  let p : QueryPayload :=
    { startDateTime := start_time, endDateTime := end_time, recordLimit := limit,
      subject := Option.none, peer := Option.none }
  let p := if subject_ips_in ≠ [] then
      { p with subject := Option.some ⟨[("includes", subject_ips_in)]⟩ } else p
  let p := if subject_ips_ex ≠ [] then
      { p with subject := Option.some ⟨[("excludes", subject_ips_ex)]⟩ } else p
  let p := if peer_ips_in ≠ [] then
      { p with peer := Option.some ⟨[("includes", peer_ips_in)]⟩ } else p
  let p := if peer_ips_ex ≠ [] then
      { p with peer := Option.some ⟨[("excludes", peer_ips_ex)]⟩ } else p
  p

/-- A progress callback as passed to `fetch_flows`: receives the normalized
fraction and a status label; a raising Python callback is modelled by an
`Except.error` result carrying the exception's message. -/
abbrev Progress := ℚ → String → Except String Unit

/-- Outcome of the poll loop of `fetch_flows` on a finite list of status
payloads. `stillPolling` means the list was exhausted with the loop still
running (the code's `while True:` would poll again). `timeout` is the
spec's `Timeout` failure; it is stated here so claims about it can be
expressed, and the code never produces it. `callbackRaised` is the
uncaught propagation of an exception raised by the progress callback. -/
inductive PollOutcome : Type where
  | completed : PollOutcome
  | stillPolling : PollOutcome
  | timeout : PollOutcome
  | callbackRaised (msg : String) : PollOutcome
deriving DecidableEq

/-- Observable trace of one run of the poll loop: final outcome, number of
status GETs performed, the progress-callback invocations (fraction, label)
in order, and the total seconds slept (`time.sleep(2)` per continued
iteration). -/
structure PollRun : Type where
  outcome : PollOutcome
  polls : ℕ
  calls : List (ℚ × String)
  sleepSeconds : ℕ
deriving DecidableEq

/-- The progress-callback invocations a single poll contributes: none when
no callback was supplied, otherwise the one call the code makes with
`search_status.get("percentComplete", 0) / 100` and the fixed label. -/
def callItems (p : Option Progress) (s : Option ℚ) : List (ℚ × String) :=
  match p with
  | Option.none => []
  | Option.some _ => [((s.getD 0) / 100, "Search in progress...")]

/-- Result of the `if progress: progress(...)` statement of one poll
iteration: `Except.ok ()` when no callback is supplied or the callback
returns, `Except.error` when the Python callback raises. -/
def callResult (p : Option Progress) (s : Option ℚ) : Except String Unit :=
  match p with
  | Option.none => Except.ok ()
  | Option.some f => f ((s.getD 0) / 100) "Search in progress..."

/-- Embedding of the poll loop of `StealthwatchClient.fetch_flows`
(src/backend.py lines 83-92). Each list element is the optional
`percentComplete` of one successfully fetched and parsed status payload.
Per iteration the code: performs the GET (one poll), invokes the callback
if supplied (fraction `percent-or-0 / 100`, label "Search in progress...";
an exception from it propagates uncaught and aborts the loop), breaks when
`percentComplete == 100.0`, otherwise sleeps 2 seconds and loops. -/
def runPollLoop (p : Option Progress) : List (Option ℚ) → PollRun
  | [] => ⟨PollOutcome.stillPolling, 0, [], 0⟩
  | s :: rest =>
    match callResult p s with
    | Except.error msg => ⟨PollOutcome.callbackRaised msg, 1, callItems p s, 0⟩
    | Except.ok _ =>
      if s = Option.some 100 then ⟨PollOutcome.completed, 1, callItems p s, 0⟩
      else
        let t := runPollLoop p rest
        ⟨t.outcome, t.polls + 1, callItems p s ++ t.calls, t.sleepSeconds + 2⟩

/-- A callback option that never raises (including the case of no callback
supplied); the Python code only guarantees loop progress under this. -/
def NeverRaises (p : Option Progress) : Prop :=
  ∀ f, p = Option.some f → ∀ q s, f q s = Except.ok ()

/-- Outcome of a `requests.Session.get` call: transport-level failure or a
response with status code and JSON-decoded body. -/
inductive GetResult : Type where
  | transportError (msg : String) : GetResult
  | response (status : ℕ) (body : PyVal) : GetResult

/-- Python's `v.get(k, dflt)`: returns the binding or the default on a
dict, and raises `AttributeError` on any non-dict value. -/
def pyDictGet (v : PyVal) (k : String) (dflt : PyVal) : Except PyExn PyVal :=
  match v with
  | PyVal.dict fs => Except.ok ((lookupKey fs k).getD dflt)
  | _ => Except.error (PyExn.attributeError ("object has no attribute get: " ++ k))

/-- Embedding of the result fetch at the end of
`StealthwatchClient.fetch_flows` (src/backend.py lines 94-97): one GET on
`<status-url>/results`; `raise_for_status` turns a transport failure or a
4xx/5xx status into a `RequestException`; otherwise the flows are read by
`response.json().get("data", {}).get("flows", [])`. -/
def fetch_results (r : GetResult) : Except PyExn PyVal :=
  match r with
  | GetResult.transportError msg => Except.error (PyExn.requestException msg)
  | GetResult.response status body =>
      if 400 ≤ status then
        Except.error (PyExn.requestException ("HTTP " ++ toString status ++ " error"))
      else do
        let d ← pyDictGet body "data" (PyVal.dict [])
        pyDictGet d "flows" (PyVal.list [])

/-- Embedding of the per-record normalization performed inside the loop of
`process_flows_to_dataframe` (src/backend.py lines 101-116): builds the
seven-field flat record via chained `.get` calls with `{}` defaults at the
intermediate levels and `None` defaults at the leaves. -/
def normalizeFlow (flow : PyVal) : Except PyExn (List (String × PyVal)) := do
  let stats ← pyDictGet flow "statistics" (PyVal.dict [])
  let startTime ← pyDictGet stats "firstActiveTime" PyVal.none
  let subj ← pyDictGet flow "subject" (PyVal.dict [])
  let sourceIp ← pyDictGet subj "ipAddress" PyVal.none
  let subjPP ← pyDictGet subj "portProtocol" (PyVal.dict [])
  let sourcePort ← pyDictGet subjPP "port" PyVal.none
  let peer ← pyDictGet flow "peer" (PyVal.dict [])
  let destinationIp ← pyDictGet peer "ipAddress" PyVal.none
  let peerPP ← pyDictGet peer "portProtocol" (PyVal.dict [])
  let destinationPort ← pyDictGet peerPP "port" PyVal.none
  let protocol ← pyDictGet flow "protocol" PyVal.none
  let stats2 ← pyDictGet flow "statistics" (PyVal.dict [])
  let totalBytes ← pyDictGet stats2 "byteCount" PyVal.none
  Except.ok
    [("startTime", startTime), ("sourceIp", sourceIp), ("sourcePort", sourcePort),
     ("destinationIp", destinationIp), ("destinationPort", destinationPort),
     ("protocol", protocol), ("totalBytes", totalBytes)]

/-- Embedding of `process_flows_to_dataframe`: an empty (falsy) input
returns an empty DataFrame, modelled as the empty record list; otherwise
one normalized record per raw record, in order. -/
def process_flows_to_dataframe (flows : List PyVal) :
    Except PyExn (List (List (String × PyVal))) :=
  if flows.isEmpty then Except.ok [] else flows.mapM normalizeFlow

/-- Lookup of a fixed nested path in a `PyVal` tree: `Option.none` when the
path is absent (a missing key, or a non-dict along the way). Used as the
specification-side description of where each normalized field comes from. -/
def getPath : PyVal → List String → Option PyVal
  | v, [] => Option.some v
  | v, k :: ks =>
      match v with
      | PyVal.dict fs =>
          match lookupKey fs k with
          | Option.some w => getPath w ks
          | Option.none => Option.none
      | _ => Option.none

/-- The value at a fixed nested path, or Python `None` when absent. -/
def pathOrNull (v : PyVal) (p : List String) : PyVal :=
  (getPath v p).getD PyVal.none

/-- The normalized record as the specification describes it: each of the
seven output fields holds the value found at its fixed nested path, or
null when that path is absent. -/
def recordFromPaths (flow : PyVal) : List (String × PyVal) :=
  [("startTime", pathOrNull flow ["statistics", "firstActiveTime"]),
   ("sourceIp", pathOrNull flow ["subject", "ipAddress"]),
   ("sourcePort", pathOrNull flow ["subject", "portProtocol", "port"]),
   ("destinationIp", pathOrNull flow ["peer", "ipAddress"]),
   ("destinationPort", pathOrNull flow ["peer", "portProtocol", "port"]),
   ("protocol", pathOrNull flow ["protocol"]),
   ("totalBytes", pathOrNull flow ["statistics", "byteCount"])]

/-- A key of a raw-record dict is container-well-formed when its value, if
present, is a dict (so that the chained `.get` can be applied to it). -/
def wfContainer (fs : List (String × PyVal)) (k : String) : Bool :=
  match lookupKey fs k with
  | Option.some (PyVal.dict _) => true
  | Option.some _ => false
  | Option.none => true

/-- A role key ("subject"/"peer") is well-formed when its value, if
present, is a dict whose "portProtocol" value, if present, is a dict. -/
def wfRole (fs : List (String × PyVal)) (k : String) : Bool :=
  match lookupKey fs k with
  | Option.some (PyVal.dict rfs) => wfContainer rfs "portProtocol"
  | Option.some _ => false
  | Option.none => true

/-- A raw flow record conforming to the provider's record shape: a JSON
object whose "statistics", "subject" and "peer" members, when present, are
objects (as are the roles' "portProtocol" members). Any of the paths the
normalizer reads may be absent. -/
def WFFlow : PyVal → Bool
  | PyVal.dict fs =>
      wfContainer fs "statistics" && wfRole fs "subject" && wfRole fs "peer"
  | _ => false

/-- A raw flow record with every field the normalizer reads populated
except `statistics.byteCount`, which is absent. -/
def exampleFlowNoBytes : PyVal :=
  PyVal.dict
    [("statistics", PyVal.dict [("firstActiveTime", PyVal.str "2024-01-01T00:00:00Z")]),
     ("subject", PyVal.dict
        [("ipAddress", PyVal.str "10.0.0.1"),
         ("portProtocol", PyVal.dict [("port", PyVal.num 443)])]),
     ("peer", PyVal.dict
        [("ipAddress", PyVal.str "8.8.8.8"),
         ("portProtocol", PyVal.dict [("port", PyVal.num 53)])]),
     ("protocol", PyVal.str "TCP")]

lemma callResult_ok (p : Option Progress) (hp : NeverRaises p) (s : Option ℚ) :
    callResult p s = Except.ok () := by
  cases p with
  | none => rfl
  | some f => exact hp f rfl _ _

lemma runPollLoop_nil (p : Option Progress) :
    runPollLoop p [] = ⟨PollOutcome.stillPolling, 0, [], 0⟩ := rfl

lemma runPollLoop_cons (p : Option Progress) (hp : NeverRaises p) (s : Option ℚ)
    (rest : List (Option ℚ)) :
    runPollLoop p (s :: rest) =
      if s = Option.some 100 then ⟨PollOutcome.completed, 1, callItems p s, 0⟩
      else
        ⟨(runPollLoop p rest).outcome, (runPollLoop p rest).polls + 1,
         callItems p s ++ (runPollLoop p rest).calls,
         (runPollLoop p rest).sleepSeconds + 2⟩ := by
  simp only [runPollLoop, callResult_ok p hp s]

lemma runPollLoop_never_100 (p : Option Progress) (hp : NeverRaises p) :
    ∀ statuses : List (Option ℚ), (∀ s ∈ statuses, s ≠ Option.some 100) →
      (runPollLoop p statuses).outcome = PollOutcome.stillPolling
      ∧ (runPollLoop p statuses).polls = statuses.length
      ∧ (runPollLoop p statuses).sleepSeconds = 2 * statuses.length := by
  intro statuses
  induction statuses with
  | nil => intro _; exact ⟨rfl, rfl, rfl⟩
  | cons s rest ih =>
    intro h
    have hs : s ≠ Option.some 100 := h s (by simp)
    have ihr := ih (fun x hx => h x (by simp [hx]))
    rw [runPollLoop_cons p hp s rest, if_neg hs]
    refine ⟨ihr.1, ?_, ?_⟩
    · simp [ihr.2.1]
    · simp [ihr.2.2]
      ring

lemma runPollLoop_completes (p : Option Progress) (hp : NeverRaises p)
    (before after : List (Option ℚ)) (hb : ∀ s ∈ before, s ≠ Option.some 100) :
    (runPollLoop p (before ++ Option.some 100 :: after)).outcome = PollOutcome.completed
    ∧ (runPollLoop p (before ++ Option.some 100 :: after)).polls = before.length + 1
    ∧ (runPollLoop p (before ++ Option.some 100 :: after)).sleepSeconds = 2 * before.length := by
  induction before with
  | nil =>
    rw [List.nil_append, runPollLoop_cons p hp _ after, if_pos rfl]
    exact ⟨rfl, rfl, rfl⟩
  | cons b bs ih =>
    have hbne : b ≠ Option.some 100 := hb b (by simp)
    have ihr := ih (fun x hx => hb x (by simp [hx]))
    rw [List.cons_append, runPollLoop_cons p hp b _, if_neg hbne]
    refine ⟨ihr.1, ?_, ?_⟩
    · simp [ihr.2.1]
    · simp [ihr.2.2]
      ring

lemma mem_callItems (p : Option Progress) (s : Option ℚ) (c : ℚ × String)
    (hc : c ∈ callItems p s) : c = ((s.getD 0) / 100, "Search in progress...") := by
  cases p with
  | none => simp [callItems] at hc
  | some f => simpa [callItems] using hc

lemma runPollLoop_calls_sources (p : Option Progress) :
    ∀ statuses : List (Option ℚ), ∀ c ∈ (runPollLoop p statuses).calls,
      ∃ s ∈ statuses, c = ((s.getD 0) / 100, "Search in progress...") := by
  intro statuses
  induction statuses with
  | nil => intro c hc; simp [runPollLoop] at hc
  | cons s rest ih =>
    intro c hc
    rcases hres : callResult p s with m | u
    · rw [show runPollLoop p (s :: rest) =
            ⟨PollOutcome.callbackRaised m, 1, callItems p s, 0⟩ by
          simp only [runPollLoop, hres]] at hc
      exact ⟨s, by simp, mem_callItems p s c hc⟩
    · by_cases h100 : s = Option.some 100
      · rw [show runPollLoop p (s :: rest) =
              ⟨PollOutcome.completed, 1, callItems p s, 0⟩ by
            simp only [runPollLoop, hres, if_pos h100]] at hc
        exact ⟨s, by simp, mem_callItems p s c hc⟩
      · rw [show runPollLoop p (s :: rest) =
              ⟨(runPollLoop p rest).outcome, (runPollLoop p rest).polls + 1,
               callItems p s ++ (runPollLoop p rest).calls,
               (runPollLoop p rest).sleepSeconds + 2⟩ by
            simp only [runPollLoop, hres, if_neg h100]] at hc
      -- hc : c ∈ callItems p s ++ (runPollLoop p rest).calls
        rcases List.mem_append.mp hc with hl | hr
        · exact ⟨s, by simp, mem_callItems p s c hl⟩
        · obtain ⟨t, ht, hct⟩ := ih c hr
          exact ⟨t, by simp [ht], hct⟩

lemma runPollLoop_calls_length (f : Progress) (hf : ∀ q s, f q s = Except.ok ()) :
    ∀ statuses : List (Option ℚ),
      (runPollLoop (Option.some f) statuses).calls.length =
        (runPollLoop (Option.some f) statuses).polls := by
  have hp : NeverRaises (Option.some f) := by
    intro g hg q s
    cases hg
    exact hf q s
  intro statuses
  induction statuses with
  | nil => rfl
  | cons s rest ih =>
    rw [runPollLoop_cons _ hp s rest]
    by_cases h100 : s = Option.some 100
    · simp [if_pos h100, callItems]
    · simp [if_neg h100, callItems, ih]

/-- C3: with any supplied callback that does not raise (or none), the poll
loop returns successfully exactly on the first poll whose `percentComplete`
equals 100 (having polled once per earlier status and slept the fixed 2
seconds after each of them), and as long as no poll reports exactly 100 it
never returns successfully: it keeps polling, one poll per status and a
2-second sleep after each. -/
theorem poll_loop_exits_on_first_100 (p : Option Progress) (hp : NeverRaises p)
    (before after : List (Option ℚ)) (hb : ∀ s ∈ before, s ≠ Option.some 100) :
    ((runPollLoop p (before ++ Option.some 100 :: after)).outcome = PollOutcome.completed
     ∧ (runPollLoop p (before ++ Option.some 100 :: after)).polls = before.length + 1
     ∧ (runPollLoop p (before ++ Option.some 100 :: after)).sleepSeconds = 2 * before.length)
    ∧ (∀ statuses : List (Option ℚ), (∀ s ∈ statuses, s ≠ Option.some 100) →
        (runPollLoop p statuses).outcome ≠ PollOutcome.completed
        ∧ (runPollLoop p statuses).polls = statuses.length
        ∧ (runPollLoop p statuses).sleepSeconds = 2 * statuses.length) := by
  refine ⟨runPollLoop_completes p hp before after hb, fun statuses h => ?_⟩
  have hn := runPollLoop_never_100 p hp statuses h
  refine ⟨?_, hn.2.1, hn.2.2⟩
  rw [hn.1]
  decide

/-- Witness for `poll_loop_exits_on_first_100` at the concrete server
trace [0, 100] with no callback supplied. -/
theorem poll_loop_exits_on_first_100_witness :
    (runPollLoop Option.none [Option.some 0, Option.some 100]).outcome = PollOutcome.completed
    ∧ (runPollLoop Option.none [Option.some 0, Option.some 100]).polls = 2 := by
  have h := poll_loop_exits_on_first_100 Option.none (fun f hf => Option.noConfusion hf)
      [Option.some 0] [] (by decide)
  exact ⟨h.1.1, h.1.2.1⟩

/-- C2 counterexample: the code has no attempt bound. With a server that
never reaches 100 and the claimed bound of 2 attempts, after exactly 2
polls the loop has not failed with Timeout (and has not failed at all): it
is still polling. -/
theorem poll_loop_no_timeout_counterexample :
    (runPollLoop Option.none [Option.some 0, Option.some 50]).polls = 2
    ∧ (runPollLoop Option.none [Option.some 0, Option.some 50]).outcome
        = PollOutcome.stillPolling
    ∧ (runPollLoop Option.none [Option.some 0, Option.some 50]).outcome
        ≠ PollOutcome.timeout := by
  decide

/-- C2 amended: the poll loop of the code has no maximum attempt count:
for every server whose polled `percentComplete` never reaches 100 it never
fails with Timeout — after consuming any number of polls it is still in
progress, having polled once per status. -/
theorem poll_loop_unbounded_no_timeout (p : Option Progress) (hp : NeverRaises p)
    (statuses : List (Option ℚ)) (h : ∀ s ∈ statuses, s ≠ Option.some 100) :
    (runPollLoop p statuses).outcome = PollOutcome.stillPolling
    ∧ (runPollLoop p statuses).outcome ≠ PollOutcome.timeout
    ∧ (runPollLoop p statuses).polls = statuses.length := by
  have hn := runPollLoop_never_100 p hp statuses h
  refine ⟨hn.1, ?_, hn.2.1⟩
  rw [hn.1]
  decide

/-- Witness for `poll_loop_unbounded_no_timeout` on the 2-poll trace
[0, 50]. -/
theorem poll_loop_unbounded_no_timeout_witness :
    (runPollLoop Option.none [Option.some 10, Option.some 90]).outcome
        = PollOutcome.stillPolling
    ∧ (runPollLoop Option.none [Option.some 10, Option.some 90]).outcome
        ≠ PollOutcome.timeout
    ∧ (runPollLoop Option.none [Option.some 10, Option.some 90]).polls = 2 := by
  have h := poll_loop_unbounded_no_timeout Option.none (fun f hf => Option.noConfusion hf)
      [Option.some 10, Option.some 90] (by decide)
  exact ⟨h.1, h.2.1, h.2.2⟩

/-- C6: when a progress callback is supplied (and returns normally), the
poll loop invokes it exactly once per poll; every invocation's fraction is
`percentComplete/100` and lies in [0, 1] whenever the polled percentages
lie in [0, 100]; and on the simulated percentages [0, 40, 100] it is called
exactly 3 times with fractions [0, 2/5, 1] and the loop returns normally
after the third poll. -/
theorem progress_callback_once_per_poll (f : Progress)
    (hf : ∀ q s, f q s = Except.ok ()) :
    (∀ statuses : List (Option ℚ),
       (runPollLoop (Option.some f) statuses).calls.length =
         (runPollLoop (Option.some f) statuses).polls)
    ∧ (∀ statuses : List (Option ℚ), (∀ s ∈ statuses, 0 ≤ s.getD 0 ∧ s.getD 0 ≤ 100) →
        ∀ c ∈ (runPollLoop (Option.some f) statuses).calls, 0 ≤ c.1 ∧ c.1 ≤ 1)
    ∧ ((runPollLoop (Option.some f)
          [Option.some 0, Option.some 40, Option.some 100]).calls =
         [(0, "Search in progress..."), (2/5, "Search in progress..."),
          (1, "Search in progress...")]
       ∧ (runPollLoop (Option.some f)
            [Option.some 0, Option.some 40, Option.some 100]).outcome
           = PollOutcome.completed
       ∧ (runPollLoop (Option.some f)
            [Option.some 0, Option.some 40, Option.some 100]).polls = 3) := by
  refine ⟨runPollLoop_calls_length f hf, fun statuses h c hc => ?_, ?_⟩
  · obtain ⟨s, hs, rfl⟩ := runPollLoop_calls_sources (Option.some f) statuses c hc
    obtain ⟨h0, h100⟩ := h s hs
    exact ⟨div_nonneg h0 (by norm_num), by rw [div_le_one (by norm_num)]; exact h100⟩
  · refine ⟨?_, ?_, ?_⟩ <;>
      norm_num [runPollLoop, callResult, callItems, hf]

/-- Witness for `progress_callback_once_per_poll` with the trivial callback
and the simulated percentages [0, 40, 100]. -/
theorem progress_callback_once_per_poll_witness :
    (runPollLoop (Option.some (fun _ _ => Except.ok ()))
        [Option.some 0, Option.some 40, Option.some 100]).calls =
      [(0, "Search in progress..."), (2/5, "Search in progress..."),
       (1, "Search in progress...")]
    ∧ (runPollLoop (Option.some (fun _ _ => Except.ok ()))
        [Option.some 0, Option.some 40, Option.some 100]).outcome
        = PollOutcome.completed
    ∧ (runPollLoop (Option.some (fun _ _ => Except.ok ()))
        [Option.some 0, Option.some 40, Option.some 100]).polls = 3 :=
  (progress_callback_once_per_poll (fun _ _ => Except.ok ()) (fun _ _ => rfl)).2.2

/-- C7 counterexample: an exception raised by the progress callback does
abort the poll loop. With a callback raising on every call and a server
trace [0, 100], the loop stops after the first poll with the callback's
exception and never reaches the poll that reports 100. -/
theorem callback_exception_aborts_counterexample :
    (runPollLoop (Option.some (fun _ _ => Except.error "boom"))
        [Option.some 0, Option.some 100]).outcome = PollOutcome.callbackRaised "boom"
    ∧ (runPollLoop (Option.some (fun _ _ => Except.error "boom"))
        [Option.some 0, Option.some 100]).polls = 1
    ∧ (runPollLoop (Option.some (fun _ _ => Except.error "boom"))
        [Option.some 0, Option.some 100]).outcome ≠ PollOutcome.completed := by
  refine ⟨rfl, rfl, fun h => ?_⟩
  rw [show (runPollLoop (Option.some (fun _ _ => Except.error "boom"))
      [Option.some 0, Option.some 100]).outcome
      = PollOutcome.callbackRaised "boom" from rfl] at h
  exact PollOutcome.noConfusion h

/-- C7 amended: the callback invocation is not guarded by any handler: an
exception raised by the supplied progress callback during a poll propagates
and aborts the poll loop immediately on that poll, regardless of the
remaining server responses; the query fails with the callback's exception. -/
theorem callback_exception_aborts_poll (f : Progress) (s : Option ℚ)
    (rest : List (Option ℚ)) (m : String)
    (hf : f ((s.getD 0) / 100) "Search in progress..." = Except.error m) :
    runPollLoop (Option.some f) (s :: rest) =
      ⟨PollOutcome.callbackRaised m, 1,
       [((s.getD 0) / 100, "Search in progress...")], 0⟩ := by
  simp only [runPollLoop, callResult, hf, callItems]

/-- Witness for `callback_exception_aborts_poll` with an always-raising
callback on the server trace [0, 100]. -/
theorem callback_exception_aborts_poll_witness :
    runPollLoop (Option.some (fun _ _ => Except.error "boom"))
        [Option.some 0, Option.some 100] =
      ⟨PollOutcome.callbackRaised "boom", 1, [(0, "Search in progress...")], 0⟩ := by
  have h := callback_exception_aborts_poll (fun _ _ => Except.error "boom")
      (Option.some 0) [Option.some 100] "boom" rfl
  rw [h]
  norm_num

/-- C10: a poll whose status payload lacks `percentComplete` is treated as
still in progress: the supplied callback is invoked with fraction 0 (the
`.get("percentComplete", 0)` default), the loop does not exit on that poll
but sleeps 2 seconds and polls again, its remaining behavior determined by
the rest of the trace; in particular on such a single-poll trace the loop
is still polling. -/
theorem missing_percent_treated_in_progress (f : Progress)
    (rest : List (Option ℚ)) (hf : f 0 "Search in progress..." = Except.ok ()) :
    runPollLoop (Option.some f) (Option.none :: rest) =
      ⟨(runPollLoop (Option.some f) rest).outcome,
       (runPollLoop (Option.some f) rest).polls + 1,
       (0, "Search in progress...") :: (runPollLoop (Option.some f) rest).calls,
       (runPollLoop (Option.some f) rest).sleepSeconds + 2⟩
    ∧ (runPollLoop (Option.some f) [Option.none]).outcome = PollOutcome.stillPolling := by
  have h0 : ((Option.none : Option ℚ).getD 0) / 100 = 0 := by norm_num
  have hmain : ∀ tail : List (Option ℚ),
      runPollLoop (Option.some f) (Option.none :: tail) =
        ⟨(runPollLoop (Option.some f) tail).outcome,
         (runPollLoop (Option.some f) tail).polls + 1,
         (0, "Search in progress...") :: (runPollLoop (Option.some f) tail).calls,
         (runPollLoop (Option.some f) tail).sleepSeconds + 2⟩ := by
    intro tail
    simp [runPollLoop, callResult, h0, hf, callItems]
  exact ⟨hmain rest, by rw [hmain []]; rfl⟩

/-- Witness for `missing_percent_treated_in_progress`: a first status
without `percentComplete`, then one reporting 100. -/
theorem missing_percent_treated_in_progress_witness :
    runPollLoop (Option.some (fun _ _ => Except.ok ()))
        [Option.none, Option.some 100] =
      ⟨PollOutcome.completed, 2,
       [(0, "Search in progress..."), (1, "Search in progress...")], 2⟩ := by
  have h := missing_percent_treated_in_progress (fun _ _ => Except.ok ())
      [Option.some 100] rfl
  rw [h.1]
  norm_num [runPollLoop, callResult, callItems]

/-- C4: when both the include and the exclude list are non-empty for the
same role, the serialized role block holds exactly one key under
`ipAddresses`, and it is always the same one: the `excludes` assignment is
the textually later of the two `if` statements for each role, so the
exclude list deterministically wins on every such request. -/
theorem both_lists_excludes_wins (start_time end_time : String) (limit : ℕ)
    (subject_ips_in subject_ips_ex peer_ips_in peer_ips_ex : List String) :
    (subject_ips_in ≠ [] → subject_ips_ex ≠ [] →
      (build_query_payload start_time end_time limit subject_ips_in subject_ips_ex
          peer_ips_in peer_ips_ex).subject
        = Option.some ⟨[("excludes", subject_ips_ex)]⟩)
    ∧ (peer_ips_in ≠ [] → peer_ips_ex ≠ [] →
      (build_query_payload start_time end_time limit subject_ips_in subject_ips_ex
          peer_ips_in peer_ips_ex).peer
        = Option.some ⟨[("excludes", peer_ips_ex)]⟩) := by
  constructor
  · intro h1 h2
    simp only [build_query_payload]
    split_ifs <;> simp_all
  · intro h1 h2
    simp only [build_query_payload]
    split_ifs <;> simp_all

/-- Witness for `both_lists_excludes_wins` with both lists supplied for
both roles. -/
theorem both_lists_excludes_wins_witness :
    (build_query_payload "T0" "T1" 100 ["10.0.0.1"] ["10.0.0.2"] ["8.8.8.8"]
        ["9.9.9.9"]).subject = Option.some ⟨[("excludes", ["10.0.0.2"])]⟩
    ∧ (build_query_payload "T0" "T1" 100 ["10.0.0.1"] ["10.0.0.2"] ["8.8.8.8"]
        ["9.9.9.9"]).peer = Option.some ⟨[("excludes", ["9.9.9.9"])]⟩ := by
  have h := both_lists_excludes_wins "T0" "T1" 100 ["10.0.0.1"] ["10.0.0.2"]
      ["8.8.8.8"] ["9.9.9.9"]
  exact ⟨h.1 (by simp) (by simp), h.2 (by simp) (by simp)⟩

/-- C5: when, for a role, only the include list (resp. only the exclude
list) is non-empty, the serialized role block holds exactly that one key
under `ipAddresses`; and the concrete filter with subject
includes=["10.0.0.1"] and peer excludes=["8.8.8.8"] serializes to the
nested shape with exactly those role blocks alongside the top-level time
window and record limit. -/
theorem single_list_single_key (start_time end_time : String) (limit : ℕ)
    (subject_ips_in subject_ips_ex peer_ips_in peer_ips_ex : List String) :
    (subject_ips_in ≠ [] → subject_ips_ex = [] →
      (build_query_payload start_time end_time limit subject_ips_in subject_ips_ex
          peer_ips_in peer_ips_ex).subject
        = Option.some ⟨[("includes", subject_ips_in)]⟩)
    ∧ (subject_ips_in = [] → subject_ips_ex ≠ [] →
      (build_query_payload start_time end_time limit subject_ips_in subject_ips_ex
          peer_ips_in peer_ips_ex).subject
        = Option.some ⟨[("excludes", subject_ips_ex)]⟩)
    ∧ (peer_ips_in ≠ [] → peer_ips_ex = [] →
      (build_query_payload start_time end_time limit subject_ips_in subject_ips_ex
          peer_ips_in peer_ips_ex).peer
        = Option.some ⟨[("includes", peer_ips_in)]⟩)
    ∧ (peer_ips_in = [] → peer_ips_ex ≠ [] →
      (build_query_payload start_time end_time limit subject_ips_in subject_ips_ex
          peer_ips_in peer_ips_ex).peer
        = Option.some ⟨[("excludes", peer_ips_ex)]⟩)
    ∧ build_query_payload "2024-01-01T00:00:00Z" "2024-01-01T01:00:00Z" 1000
        ["10.0.0.1"] [] [] ["8.8.8.8"] =
      { startDateTime := "2024-01-01T00:00:00Z",
        endDateTime := "2024-01-01T01:00:00Z",
        recordLimit := 1000,
        subject := Option.some ⟨[("includes", ["10.0.0.1"])]⟩,
        peer := Option.some ⟨[("excludes", ["8.8.8.8"])]⟩ } := by
  refine ⟨?_, ?_, ?_, ?_, by decide⟩ <;>
  · intro h1 h2
    simp only [build_query_payload]
    split_ifs <;> simp_all

/-- Witness for `single_list_single_key` at the spec's concrete example. -/
theorem single_list_single_key_witness :
    (build_query_payload "2024-01-01T00:00:00Z" "2024-01-01T01:00:00Z" 1000
        ["10.0.0.1"] [] [] ["8.8.8.8"]).subject
      = Option.some ⟨[("includes", ["10.0.0.1"])]⟩
    ∧ (build_query_payload "2024-01-01T00:00:00Z" "2024-01-01T01:00:00Z" 1000
        ["10.0.0.1"] [] [] ["8.8.8.8"]).peer
      = Option.some ⟨[("excludes", ["8.8.8.8"])]⟩ := by
  have h := single_list_single_key "2024-01-01T00:00:00Z" "2024-01-01T01:00:00Z" 1000
      ["10.0.0.1"] [] [] ["8.8.8.8"]
  exact ⟨h.1 (by simp) rfl, h.2.2.2.1 rfl (by simp)⟩

/-- C1 counterexample: the two failure kinds of `authenticate` are not
distinct catchable conditions. A token-missing response and a transport
failure both raise an exception of the same Python class
(`ConnectionError`), so an `except` clause cannot catch them separately. -/
theorem auth_failure_classes_not_distinct_counterexample :
    authenticate (PostResult.response 200 []) =
      Except.error (PyExn.connectionError
        "Authentication error: Authentication failed: XSRF-TOKEN not found in response cookies.")
    ∧ authenticate (PostResult.transportError "connection refused") =
      Except.error (PyExn.connectionError
        "Network error during authentication: connection refused")
    ∧ exnClass (PyExn.connectionError
        "Authentication error: Authentication failed: XSRF-TOKEN not found in response cookies.")
      = exnClass (PyExn.connectionError
        "Network error during authentication: connection refused") :=
  ⟨rfl, rfl, rfl⟩

/-- C1 amended: `authenticate` does fail on a token-missing response and on
a transport failure, but both failures (indeed every failure it can raise)
are of the single exception class `ConnectionError`; the two kinds are
distinguishable only by their message text ("Authentication error: ..."
versus "Network error during authentication: ..."), not catchable as
separate exception classes. -/
theorem auth_failures_single_class (msg : String) (status : ℕ)
    (cookies : List (String × String)) (hst : status < 400)
    (htok : lookupKey cookies "XSRF-TOKEN" = Option.none) :
    authenticate (PostResult.response status cookies) =
      Except.error (PyExn.connectionError
        "Authentication error: Authentication failed: XSRF-TOKEN not found in response cookies.")
    ∧ authenticate (PostResult.transportError msg) =
      Except.error (PyExn.connectionError
        ("Network error during authentication: " ++ msg))
    ∧ (∀ (r : PostResult) (e : PyExn), authenticate r = Except.error e →
        exnClass e = "ConnectionError") := by
  refine ⟨?_, rfl, ?_⟩
  · simp [authenticate, Nat.not_le.mpr hst, htok]
  · intro r e he
    cases r with
    | transportError m =>
      simp only [authenticate] at he
      cases he
      rfl
    | response st cs =>
      simp only [authenticate] at he
      split at he
      · cases he
        rfl
      · split at he
        · split at he
          · cases he
            rfl
          · cases he
        · cases he
          rfl

/-- Witness for `auth_failures_single_class`: a 200 response with no
cookies, and a refused connection. -/
theorem auth_failures_single_class_witness :
    authenticate (PostResult.response 200 []) =
      Except.error (PyExn.connectionError
        "Authentication error: Authentication failed: XSRF-TOKEN not found in response cookies.")
    ∧ authenticate (PostResult.transportError "connection refused") =
      Except.error (PyExn.connectionError
        "Network error during authentication: connection refused") := by
  have h := auth_failures_single_class "connection refused" 200 [] (by norm_num) rfl
  exact ⟨h.1, h.2.1⟩

/-- C9: the result fetch performs its single GET on the results resource
and: a transport failure or an HTTP error status raises the transport-level
`RequestException`; a 2xx body lacking the `data` payload, or whose `data`
object lacks the `flows` field, yields the empty list rather than failing;
a present `flows` value is returned as-is. -/
theorem fetch_results_contract :
    (∀ msg : String, fetch_results (GetResult.transportError msg) =
      Except.error (PyExn.requestException msg))
    ∧ (∀ (status : ℕ) (body : PyVal), 400 ≤ status →
        fetch_results (GetResult.response status body) =
          Except.error (PyExn.requestException
            ("HTTP " ++ toString status ++ " error")))
    ∧ (∀ (status : ℕ) (fs : List (String × PyVal)), status < 400 →
        lookupKey fs "data" = Option.none →
        fetch_results (GetResult.response status (PyVal.dict fs)) =
          Except.ok (PyVal.list []))
    ∧ (∀ (status : ℕ) (fs gs : List (String × PyVal)), status < 400 →
        lookupKey fs "data" = Option.some (PyVal.dict gs) →
        lookupKey gs "flows" = Option.none →
        fetch_results (GetResult.response status (PyVal.dict fs)) =
          Except.ok (PyVal.list []))
    ∧ (∀ (status : ℕ) (fs gs : List (String × PyVal)) (v : PyVal), status < 400 →
        lookupKey fs "data" = Option.some (PyVal.dict gs) →
        lookupKey gs "flows" = Option.some v →
        fetch_results (GetResult.response status (PyVal.dict fs)) =
          Except.ok v) := by
  refine ⟨fun msg => rfl, fun status body h => ?_, fun status fs h hd => ?_,
    fun status fs gs h hd hf => ?_, fun status fs gs v h hd hf => ?_⟩
  · simp [fetch_results, h]
  · simp only [fetch_results]
    rw [if_neg (Nat.not_le.mpr h),
      show pyDictGet (PyVal.dict fs) "data" (PyVal.dict []) =
        Except.ok (PyVal.dict []) by simp [pyDictGet, hd]]
    show pyDictGet (PyVal.dict []) "flows" (PyVal.list []) = Except.ok (PyVal.list [])
    simp [pyDictGet, lookupKey]
  · simp only [fetch_results]
    rw [if_neg (Nat.not_le.mpr h),
      show pyDictGet (PyVal.dict fs) "data" (PyVal.dict []) =
        Except.ok (PyVal.dict gs) by simp [pyDictGet, hd]]
    show pyDictGet (PyVal.dict gs) "flows" (PyVal.list []) = Except.ok (PyVal.list [])
    simp [pyDictGet, hf]
  · simp only [fetch_results]
    rw [if_neg (Nat.not_le.mpr h),
      show pyDictGet (PyVal.dict fs) "data" (PyVal.dict []) =
        Except.ok (PyVal.dict gs) by simp [pyDictGet, hd]]
    show pyDictGet (PyVal.dict gs) "flows" (PyVal.list []) = Except.ok v
    simp [pyDictGet, hf]

/-- Witness for `fetch_results_contract`: a 200 response whose body lacks
the `data` payload yields the empty flows list. -/
theorem fetch_results_contract_witness :
    fetch_results (GetResult.response 200 (PyVal.dict [("other", PyVal.num 1)])) =
      Except.ok (PyVal.list []) :=
  fetch_results_contract.2.2.1 200 [("other", PyVal.num 1)] (by norm_num) rfl

lemma getPath_cons_dict (fs : List (String × PyVal)) (k : String) (ks : List String) :
    getPath (PyVal.dict fs) (k :: ks) =
      match lookupKey fs k with
      | Option.some w => getPath w ks
      | Option.none => Option.none := rfl

lemma pathOrNull_single (fs : List (String × PyVal)) (k : String) :
    pathOrNull (PyVal.dict fs) [k] = (lookupKey fs k).getD PyVal.none := by
  rw [pathOrNull, getPath_cons_dict]
  rcases h : lookupKey fs k with _ | w <;> rfl

lemma wfContainer_getD (fs : List (String × PyVal)) (k : String)
    (h : wfContainer fs k = true) :
    ∃ g, (lookupKey fs k).getD (PyVal.dict []) = PyVal.dict g
      ∧ ∀ k2, (lookupKey g k2).getD PyVal.none = pathOrNull (PyVal.dict fs) [k, k2] := by
  unfold wfContainer at h
  rcases hl : lookupKey fs k with _ | v
  · refine ⟨[], rfl, fun k2 => ?_⟩
    rw [pathOrNull, getPath_cons_dict, hl]
    rfl
  · rw [hl] at h
    cases v with
    | dict g =>
      refine ⟨g, rfl, fun k2 => ?_⟩
      rw [pathOrNull, getPath_cons_dict, hl]
      show (lookupKey g k2).getD PyVal.none = (getPath (PyVal.dict g) [k2]).getD PyVal.none
      rw [getPath_cons_dict]
      rcases hk2 : lookupKey g k2 with _ | w <;> rfl
    | none => simp at h
    | str s => simp at h
    | num q => simp at h
    | bool b => simp at h
    | list xs => simp at h

lemma wfRole_getD (fs : List (String × PyVal)) (k : String) (h : wfRole fs k = true) :
    ∃ g, (lookupKey fs k).getD (PyVal.dict []) = PyVal.dict g
      ∧ (∀ k2, (lookupKey g k2).getD PyVal.none = pathOrNull (PyVal.dict fs) [k, k2])
      ∧ ∃ g2, (lookupKey g "portProtocol").getD (PyVal.dict []) = PyVal.dict g2
        ∧ ∀ k3, (lookupKey g2 k3).getD PyVal.none
            = pathOrNull (PyVal.dict fs) [k, "portProtocol", k3] := by
  unfold wfRole at h
  rcases hl : lookupKey fs k with _ | v
  · refine ⟨[], rfl, fun k2 => ?_, [], rfl, fun k3 => ?_⟩
    · rw [pathOrNull, getPath_cons_dict, hl]
      rfl
    · rw [pathOrNull, getPath_cons_dict, hl]
      rfl
  · rw [hl] at h
    cases v with
    | dict g =>
      obtain ⟨g2, hg2, hg2p⟩ := wfContainer_getD g "portProtocol" h
      refine ⟨g, rfl, fun k2 => ?_, g2, hg2, fun k3 => ?_⟩
      · rw [pathOrNull, getPath_cons_dict, hl]
        show (lookupKey g k2).getD PyVal.none
          = (getPath (PyVal.dict g) [k2]).getD PyVal.none
        rw [getPath_cons_dict]
        rcases hk2 : lookupKey g k2 with _ | w <;> rfl
      · rw [hg2p k3]
        show pathOrNull (PyVal.dict g) ["portProtocol", k3]
          = pathOrNull (PyVal.dict fs) [k, "portProtocol", k3]
        rw [pathOrNull, pathOrNull, getPath_cons_dict fs, hl]
    | none => simp at h
    | str s => simp at h
    | num q => simp at h
    | bool b => simp at h
    | list xs => simp at h

lemma exceptOk_bind {α β : Type} (a : α) (f : α → Except PyExn β) :
    (Except.ok a >>= f) = f a := rfl

lemma normalizeFlow_wf (flow : PyVal) (h : WFFlow flow = true) :
    normalizeFlow flow = Except.ok (recordFromPaths flow) := by
  cases flow
  case dict fs =>
    simp only [WFFlow, Bool.and_eq_true] at h
    obtain ⟨⟨hstat, hsub⟩, hpeer⟩ := h
    obtain ⟨sfs, hs1, hs2⟩ := wfContainer_getD fs "statistics" hstat
    obtain ⟨jfs, hj1, hj2, jpp, hjp1, hjp2⟩ := wfRole_getD fs "subject" hsub
    obtain ⟨pfs, hp1, hp2, ppp, hpp1, hpp2⟩ := wfRole_getD fs "peer" hpeer
    simp only [normalizeFlow, pyDictGet, hs1, hj1, hp1, hjp1, hpp1, exceptOk_bind]
    simp only [recordFromPaths, ← hs2, ← hj2, ← hjp2, ← hp2, ← hpp2, pathOrNull_single]
  all_goals simp [WFFlow] at h

lemma mapM_normalizeFlow (flows : List PyVal) (h : ∀ f ∈ flows, WFFlow f = true) :
    flows.mapM normalizeFlow = Except.ok (flows.map recordFromPaths) := by
  induction flows with
  | nil => rfl
  | cons a as ih =>
    rw [List.mapM_cons, normalizeFlow_wf a (h a (by simp)),
      ih (fun f hf => h f (by simp [hf]))]
    rfl

lemma process_flows_wf (flows : List PyVal) (h : ∀ f ∈ flows, WFFlow f = true) :
    process_flows_to_dataframe flows = Except.ok (flows.map recordFromPaths) := by
  cases flows with
  | nil => rfl
  | cons a as =>
    rw [show process_flows_to_dataframe (a :: as) = (a :: as).mapM normalizeFlow from rfl,
      mapM_normalizeFlow (a :: as) h]

/-- C8: for every list of raw flow records (conforming to the provider's
record shape, with any of the read paths possibly absent), normalization
returns — without raising — one output record per input record, each of the
seven output fields holding the value at its fixed nested path or Python
`None` when that path is absent; the empty input yields the empty
collection; and the concrete record missing `statistics.byteCount` yields a
null byte count with all other fields populated. -/
theorem normalize_contract (flows : List PyVal) (h : ∀ f ∈ flows, WFFlow f = true) :
    (process_flows_to_dataframe flows = Except.ok (flows.map recordFromPaths)
      ∧ (flows.map recordFromPaths).length = flows.length)
    ∧ process_flows_to_dataframe [] = Except.ok []
    ∧ process_flows_to_dataframe [exampleFlowNoBytes]
        = Except.ok [recordFromPaths exampleFlowNoBytes]
    ∧ lookupKey (recordFromPaths exampleFlowNoBytes) "totalBytes"
        = Option.some PyVal.none
    ∧ ∀ k ∈ (["startTime", "sourceIp", "sourcePort", "destinationIp",
              "destinationPort", "protocol"] : List String),
        ∃ v, lookupKey (recordFromPaths exampleFlowNoBytes) k = Option.some v
          ∧ v ≠ PyVal.none := by
  refine ⟨⟨process_flows_wf flows h, by simp⟩, rfl,
    process_flows_wf [exampleFlowNoBytes]
      (fun f hf => by rw [List.mem_singleton] at hf; rw [hf]; rfl),
    rfl, ?_⟩
  intro k hk
  simp only [List.mem_cons, List.not_mem_nil, or_false] at hk
  rcases hk with rfl | rfl | rfl | rfl | rfl | rfl
  · exact ⟨_, rfl, fun hc => PyVal.noConfusion hc⟩
  · exact ⟨_, rfl, fun hc => PyVal.noConfusion hc⟩
  · exact ⟨_, rfl, fun hc => PyVal.noConfusion hc⟩
  · exact ⟨_, rfl, fun hc => PyVal.noConfusion hc⟩
  · exact ⟨_, rfl, fun hc => PyVal.noConfusion hc⟩
  · exact ⟨_, rfl, fun hc => PyVal.noConfusion hc⟩

/-- Witness for `normalize_contract` on the one-record list containing the
record that lacks `statistics.byteCount`. -/
theorem normalize_contract_witness :
    process_flows_to_dataframe [exampleFlowNoBytes]
      = Except.ok [recordFromPaths exampleFlowNoBytes]
    ∧ lookupKey (recordFromPaths exampleFlowNoBytes) "totalBytes"
        = Option.some PyVal.none := by
  have h := normalize_contract [exampleFlowNoBytes]
      (fun f hf => by rw [List.mem_singleton] at hf; rw [hf]; rfl)
  exact ⟨h.2.2.1, h.2.2.2.1⟩
